import Mathlib

/-!
Verification of the markdown schema-documentation renderer (`src/app.ts`).

The renderer extends quicktype's `TypeScriptRenderer`.  The embedding below
translates the renderer's own code faithfully; the external quicktype
machinery (the base renderer's `sourceFor` fallback, `emitEnum`,
property/description lookup and the `forEachNamedType` traversal) appears as
explicitly injected parameters or as data carried by the embedded type graph,
exactly as the source treats it: an external collaborator.
-/

/-- Embedding of quicktype's `Type` values as seen by this renderer: a tagged
variant over the kinds the renderer dispatches on.  `classT`, `enumT` and
`objectT` carry the display name the resolver assigned
(`nameForNamedType`). -/
inductive Ty where
  | anyT : Ty
  | nullT : Ty
  | boolT : Ty
  | integerT : Ty
  | doubleT : Ty
  | stringT : Ty
  | arrayT : Ty → Ty
  | classT : String → Ty
  | mapT : Ty → Ty
  | enumT : String → Ty
  | unionT : Ty
  | objectT : String → Ty
  | transformedStringT : Ty
deriving DecidableEq

/-- The `kind` string of a type, as used by `t.kind` in the source. -/
def Ty.kind : Ty → String
  | .anyT => "any"
  | .nullT => "null"
  | .boolT => "bool"
  | .integerT => "integer"
  | .doubleT => "double"
  | .stringT => "string"
  | .arrayT _ => "array"
  | .classT _ => "class"
  | .mapT _ => "map"
  | .enumT _ => "enum"
  | .unionT => "union"
  | .objectT _ => "object"
  | .transformedStringT => "date-time"

/-- `isUnionType` from the source: `t.kind == "union"`. -/
def isUnionType (t : Ty) : Bool :=
  t.kind == "union"

/-- The `instanceof ArrayType` test used in `sourceFor`'s array case. -/
def instanceOfArrayType : Ty → Bool
  | .arrayT _ => true
  | _ => false

/-- `nameForNamedType`: the display name the resolver assigned to a named
type (external lookup in quicktype; here the name is carried on the
constructor). -/
def nameForNamedType : Ty → String
  | .classT n => n
  | .enumT n => n
  | .objectT n => n
  | _ => ""

/-- Embedding of quicktype's `Sourcelike` trees: a token is a string or a
list of tokens.  `Name` tokens are represented by the string they render
to. -/
inductive Sourcelike where
  | s : String → Sourcelike
  | list : List Sourcelike → Sourcelike

mutual

/-- Flatten a `Sourcelike` tree to the text it renders as on one line. -/
def flattenSL : Sourcelike → String
  | .s t => t
  | .list xs => flattenSLList xs

/-- Flatten a list of `Sourcelike` tokens. -/
def flattenSLList : List Sourcelike → String
  | [] => ""
  | x :: xs => flattenSL x ++ flattenSLList xs

end

/-- Embedding of quicktype's `MultiWord`: an inline fragment plus the
needs-parentheses flag. -/
structure MultiWord where
  source : Sourcelike
  needsParens : Bool

/-- `singleWord` from the source: wrap the given tokens, flag false. -/
def singleWord (source : List Sourcelike) : MultiWord :=
  { source := .list source, needsParens := false }

/-- `parenIfNeeded` from the source: parenthesize the fragment iff its
flag is set. -/
def parenIfNeeded (mw : MultiWord) : Sourcelike :=
  if mw.needsParens then .list [.s "(", mw.source, .s ")"] else mw.source

/-- `MarkdownRenderer.sourceFor`.  `sup` is the inherited
`TypeScriptRenderer.sourceFor` (external), to which every kind that the
override does not customize is delegated. -/
def sourceFor (sup : Ty → MultiWord) (t : Ty) : MultiWord :=
  if (["class", "object", "enum"].contains t.kind) then
    { source := .list [.s "<a href='#typedef-", .s (nameForNamedType t), .s "'>",
                       .s (nameForNamedType t), .s "</a>"],
      needsParens := false }
  else
    match t with
    | .arrayT items =>
        let itemType := sourceFor sup items
        if instanceOfArrayType items || isUnionType items then
          singleWord [.list [.s "Array&lt;", itemType.source, .s "&gt;"]]
        else
          singleWord [.list [parenIfNeeded itemType, .s "[]"]]
    | t => sup t

example : flattenSL (sourceFor (fun _ => ⟨.s "string", false⟩) (.arrayT (.arrayT .stringT))).source
    = "Array&lt;string[]&gt;" := by decide

example : flattenSL (sourceFor (fun _ => ⟨.s "string", false⟩) (.classT "Person")).source
    = "<a href='#typedef-Person'>Person</a>" := by decide

/-- A class property as handed to the renderer by `forEachClassProperty`:
the display name, the wire-format (JSON) name, the type reference, the
optional flag, and the description `descriptionForClassProperty` returns
for it (the latter two live in quicktype's graph; they are carried here). -/
structure ClassProperty where
  name : String
  jsonName : String
  type : Ty
  isOptional : Bool
  description : Option (List String)
deriving DecidableEq

/-- A resolved class node as the section emitter sees it: display name,
the description `descriptionForType` returns, and the properties in the
declaration order `forEachClassProperty c "none"` iterates them. -/
structure ClassData where
  name : String
  description : Option (List String)
  properties : List ClassProperty
deriving DecidableEq

/-- An enum case: display name and wire-format value. -/
structure EnumCase where
  name : String
  jsonName : String
deriving DecidableEq

/-- A resolved enum node: display name, description, cases in declaration
order. -/
structure EnumData where
  name : String
  description : Option (List String)
  cases : List EnumCase
deriving DecidableEq

/-- An entry of the named-type list that `forEachNamedType` iterates:
class, enum, or union. -/
inductive NamedType where
  | classNT : ClassData → NamedType
  | enumNT : EnumData → NamedType
  | unionNT : NamedType
deriving DecidableEq

/-- Whether a named-type entry is a union. -/
def NamedType.isUnion : NamedType → Bool
  | .unionNT => true
  | _ => false

/-- `MarkdownRenderer.emitDescription`: nothing when the description is
`undefined`, otherwise one emitted line per description part. -/
def emitDescription : Option (List String) → List String
  | none => []
  | some description => description

/-- `MarkdownRenderer.emitTypeHeaderMarkdown`: anchor line, header line,
blank line, description, then one more (unconditional) blank line.
Each `emitLine` call becomes one output line. -/
def emitTypeHeaderMarkdown (name : String) (description : Option (List String)) : List String :=
  ["<a name='typedef-" ++ name ++ "'>",
   "## `" ++ name ++ "`",
   ""]
  ++ emitDescription description
  ++ [""]

/-- The indentation unit of the base renderer, used by `this.indent` for
property descriptions. -/
def indentUnit : String := "    "

/-- The lines the property loop emits after a property's bullet: nothing
when `descriptionForClassProperty` returned `undefined`, otherwise a blank
line, the description indented one level, and another blank line. -/
def propertyDescriptionBlock : Option (List String) → List String
  | none => []
  | some description =>
      [""] ++ (emitDescription (some description)).map (fun l => indentUnit ++ l) ++ [""]

/-- `MarkdownRenderer.emitClassPropertiesMarkdown`: the `### Properties`
heading, a blank line, then for each property (in declaration order) one
bullet line — display name in backticks, ` (optional)` iff optional, then
`: <code>` + the flattened `sourceFor` fragment + `</code>` — followed by
the property's description block. -/
def emitClassPropertiesMarkdown (sup : Ty → MultiWord) (c : ClassData) : List String :=
  ["### Properties", ""]
  ++ c.properties.flatMap (fun p =>
      ("* `" ++ p.name ++ "`"
        ++ (if p.isOptional then " (optional)" else "")
        ++ ": <code>" ++ flattenSL (sourceFor sup p.type).source ++ "</code>")
      :: propertyDescriptionBlock p.description)

/-- `MarkdownRenderer.emitClassMarkdown`: header block then the property
listing. -/
def emitClassMarkdown (sup : Ty → MultiWord) (c : ClassData) : List String :=
  emitTypeHeaderMarkdown c.name c.description ++ emitClassPropertiesMarkdown sup c

/-- `MarkdownRenderer.emitEnumMarkdown`: header block, then the inherited
`emitEnum` output (external base-renderer code, injected as `base`)
wrapped in a fenced code block. -/
def emitEnumMarkdown (base : EnumData → List String) (e : EnumData) : List String :=
  emitTypeHeaderMarkdown e.name e.description
  ++ ["```"] ++ base e ++ ["```"]

/-- Modelled from the spec: the base generator's default enum rendering —
"the enum's default generated-code block", a TypeScript enum declaration —
which `emitEnumMarkdown` places inside the raw fenced block.  The base
class's `emitEnum` is external quicktype code, absent from this
repository. -/
def baseEmitEnum (e : EnumData) : List String :=
  ["export enum " ++ e.name ++ " \x7b"]
  ++ e.cases.map (fun cs => indentUnit ++ cs.name ++ " = \"" ++ cs.jsonName ++ "\",")
  ++ ["\x7d"]

/-- `MarkdownRenderer.emitTypes`: dispatch per named type — class and enum
to their emitters, unions to `() => \x7b\x7d` (nothing).  The
`forEachNamedType "leading-and-interposing"` traversal itself is external
quicktype code, modelled from the spec: entries are visited in resolver
order with a blank-line separator before every emitted section (including
the first), and an entry whose callback emits nothing produces no output
at all. -/
def emitTypes (sup : Ty → MultiWord) (base : EnumData → List String)
    (namedTypes : List NamedType) : List String :=
  namedTypes.flatMap (fun nt =>
    match nt with
    | .classNT c => "" :: emitClassMarkdown sup c
    | .enumNT e => "" :: emitEnumMarkdown base e
    | .unionNT => [])

/-- The usage message printed by `main` on a wrong argument count. -/
def usageLine (program : String) : String :=
  "Usage: " ++ program ++ " SCHEMA_NAME SCHEMA_FILE"

/-- The observable outcome of a process run: standard output lines, error
stream lines, exit status. -/
structure ProcResult where
  stdout : List String
  stderr : List String
  exitCode : Nat
deriving DecidableEq

/-- The source's `main` (the name `main` is reserved in Lean for an entry
point): with exactly two positional arguments the pipeline (file read,
resolution and rendering — external quicktype code, injected here) runs
and its lines go to standard output; otherwise the usage message goes to
the error stream and the process exits with status 1 before any further
processing. -/
def mainFn (pipeline : String → String → List String) (readFile : String → String)
    (program : String) (args : List String) : ProcResult :=
  if args.length ≠ 2 then
    { stdout := [], stderr := [usageLine program], exitCode := 1 }
  else
    match args with
    | [schemaName, schemaFile] =>
        { stdout := pipeline schemaName (readFile schemaFile), stderr := [], exitCode := 0 }
    | _ => { stdout := [], stderr := [usageLine program], exitCode := 1 }

/-- A line is a property bullet iff it starts with the two characters
of a markdown bullet, `* `. -/
def isBulletLine (l : String) : Bool :=
  l.data.take 2 == ['*', ' ']

/-- A concrete stand-in for the inherited `sourceFor` fallback, used only
to evaluate the renderer on concrete inputs. -/
def defaultSup : Ty → MultiWord := fun _ => ⟨.s "string", false⟩

/-- A concrete class with no description and no properties. -/
def personClass : ClassData := { name := "Person", description := none, properties := [] }

/-- A concrete enum with two cases, wire values `"RED"` and `"GREEN"`. -/
def colorEnum : EnumData :=
  { name := "Color", description := none,
    cases := [{ name := "Red", jsonName := "RED" }, { name := "Green", jsonName := "GREEN" }] }

example : emitClassMarkdown defaultSup personClass
    = ["<a name='typedef-Person'>", "## `Person`", "", "", "### Properties", ""] := by decide

example : emitEnumMarkdown baseEmitEnum colorEnum
    = ["<a name='typedef-Color'>", "## `Color`", "", "", "```",
       "export enum Color \x7b", "    Red = \"RED\",", "    Green = \"GREEN\",", "\x7d",
       "```"] := by decide

/-- Unfolding lemma: `sourceFor` on an array type reaches the customized
array case of the `matchType` dispatch. -/
theorem sourceFor_arrayT (sup : Ty → MultiWord) (items : Ty) :
    sourceFor sup (.arrayT items) =
      (if instanceOfArrayType items || isUnionType items then
        singleWord [.list [.s "Array&lt;", (sourceFor sup items).source, .s "&gt;"]]
      else
        singleWord [.list [parenIfNeeded (sourceFor sup items), .s "[]"]]) := by
  rfl

/-- C1: for every array type reference, the formatter returns — with the
needs-parentheses flag clear — `Array&lt;` + item-expression + `&gt;` when
the item type is itself an array or a union, and otherwise the
item-expression (parenthesized iff its own flag is set) followed by `[]`;
in particular an array whose item is an array always takes the wrapped
notation, at every recursion level. -/
theorem sourceFor_array_rule (sup : Ty → MultiWord) (items : Ty) :
    (sourceFor sup (.arrayT items)).needsParens = false
    ∧ (if instanceOfArrayType items || isUnionType items then
          flattenSL (sourceFor sup (.arrayT items)).source
            = "Array&lt;" ++ flattenSL (sourceFor sup items).source ++ "&gt;"
        else
          flattenSL (sourceFor sup (.arrayT items)).source
            = (if (sourceFor sup items).needsParens then
                  "(" ++ flattenSL (sourceFor sup items).source ++ ")"
                else flattenSL (sourceFor sup items).source) ++ "[]")
    ∧ flattenSL (sourceFor sup (.arrayT (.arrayT items))).source
        = "Array&lt;" ++ flattenSL (sourceFor sup (.arrayT items)).source ++ "&gt;" := by
  refine ⟨?_, ?_, ?_⟩
  · rw [sourceFor_arrayT]
    split <;> rfl
  · rw [sourceFor_arrayT]
    split
    · simp [singleWord, flattenSL, flattenSLList, String.append_empty, String.append_assoc]
    · by_cases h : (sourceFor sup items).needsParens <;>
        simp [singleWord, parenIfNeeded, h, flattenSL, flattenSLList,
          String.append_empty, String.append_assoc]
  · rw [sourceFor_arrayT sup (.arrayT items)]
    simp [instanceOfArrayType, singleWord, flattenSL, flattenSLList,
      String.append_empty, String.append_assoc]

/-- C2: for class, enum and `object` (externally defined named-object)
kinds, the formatter returns the single anchor fragment
`<a href='#typedef-<name>'><name></a>` around the display name, with the
needs-parentheses flag false. -/
theorem sourceFor_named_anchor (sup : Ty → MultiWord) (n : String) :
    sourceFor sup (.classT n)
        = ⟨.list [.s "<a href='#typedef-", .s n, .s "'>", .s n, .s "</a>"], false⟩
    ∧ sourceFor sup (.enumT n)
        = ⟨.list [.s "<a href='#typedef-", .s n, .s "'>", .s n, .s "</a>"], false⟩
    ∧ sourceFor sup (.objectT n)
        = ⟨.list [.s "<a href='#typedef-", .s n, .s "'>", .s n, .s "</a>"], false⟩
    ∧ flattenSL (sourceFor sup (.classT n)).source
        = "<a href='#typedef-" ++ n ++ "'>" ++ n ++ "</a>"
    ∧ flattenSL (sourceFor sup (.enumT n)).source
        = "<a href='#typedef-" ++ n ++ "'>" ++ n ++ "</a>"
    ∧ flattenSL (sourceFor sup (.objectT n)).source
        = "<a href='#typedef-" ++ n ++ "'>" ++ n ++ "</a>" := by
  refine ⟨rfl, rfl, rfl, ?_, ?_, ?_⟩ <;>
    simp [sourceFor, Ty.kind, nameForNamedType, flattenSL, flattenSLList,
      String.append_empty, String.append_assoc]

/-- C3 counterexample: the emitted anchor line is `<a name='typedef-Person'>`
with no closing `</a>`; no line of the section equals the claimed literal
`<a name='typedef-Person'></a>`. -/
theorem anchor_lacks_closing_tag :
    emitClassMarkdown defaultSup personClass
      = ["<a name='typedef-Person'>", "## `Person`", "", "", "### Properties", ""]
    ∧ ¬ ("<a name='typedef-Person'></a>" ∈ emitClassMarkdown defaultSup personClass) := by
  decide

/-- C3 amended: every emitted section (class or enum) starts with the raw
HTML anchor line `<a name='typedef-<name>'>` — without a closing `</a>` —
immediately followed by the section header, with all member content coming
after. -/
theorem anchor_first_before_header_and_members
    (sup : Ty → MultiWord) (base : EnumData → List String) (c : ClassData) (e : EnumData) :
    emitClassMarkdown sup c
      = ("<a name='typedef-" ++ c.name ++ "'>")
        :: ("## `" ++ c.name ++ "`")
        :: ""
        :: (emitDescription c.description ++ [""] ++ emitClassPropertiesMarkdown sup c)
    ∧ emitEnumMarkdown base e
      = ("<a name='typedef-" ++ e.name ++ "'>")
        :: ("## `" ++ e.name ++ "`")
        :: ""
        :: (emitDescription e.description ++ [""] ++ ["```"] ++ base e ++ ["```"]) := by
  constructor <;> simp [emitClassMarkdown, emitEnumMarkdown, emitTypeHeaderMarkdown]

/-- C5: union entries of the named-type list contribute nothing to the
document — the orchestrator's output over any list equals its output over
the list with the union entries removed. -/
theorem emitTypes_suppresses_unions (sup : Ty → MultiWord) (base : EnumData → List String)
    (namedTypes : List NamedType) :
    emitTypes sup base namedTypes
      = emitTypes sup base (namedTypes.filter (fun nt => ! nt.isUnion)) := by
  induction namedTypes with
  | nil => rfl
  | cons hd tl ih =>
      cases hd <;>
        simp only [emitTypes, List.flatMap_cons, List.filter_cons, NamedType.isUnion,
          Bool.not_true, Bool.not_false, if_true, if_false, List.nil_append] at ih ⊢ <;>
        simp [ih]

/-- C7 counterexample: the member listing of a class starts with the
level-3 heading `### Properties`, not with a bold `**Properties:**` label,
and no such bold label occurs anywhere in the listing. -/
theorem properties_label_not_bold :
    (emitClassPropertiesMarkdown defaultSup personClass).head? = some "### Properties"
    ∧ "### Properties" ≠ "**Properties:**"
    ∧ ¬ ("**Properties:**" ∈ emitClassPropertiesMarkdown defaultSup personClass) := by
  decide

/-- C7 amended: for every class type, the member listing begins with the
heading line `### Properties` followed by a blank line, before the first
property bullet. -/
theorem properties_label_heading (sup : Ty → MultiWord) (c : ClassData) :
    (emitClassPropertiesMarkdown sup c).take 2 = ["### Properties", ""] := by
  simp [emitClassPropertiesMarkdown]

/-- C8 counterexample: with the description absent the header block is
anchor, header, blank, blank — an empty placeholder line does appear
between the header's blank line and the member listing (positions 3 and 4
of the section). -/
theorem description_absent_placeholder :
    emitTypeHeaderMarkdown "Person" none
      = ["<a name='typedef-Person'>", "## `Person`", "", ""]
    ∧ emitTypeHeaderMarkdown "Person" none
      ≠ ["<a name='typedef-Person'>", "## `Person`", ""]
    ∧ (emitClassMarkdown defaultSup personClass).get? 3 = some ""
    ∧ (emitClassMarkdown defaultSup personClass).get? 4 = some "### Properties" := by
  decide

/-- C8 amended: when a description is present each of its lines is emitted
verbatim, one per output line, followed by a blank line; when it is absent
the description step itself emits nothing, but the unconditional trailing
blank line still appears, leaving one empty placeholder line after the
header's blank line. -/
theorem description_emission (name : String) (description : Option (List String)) :
    emitTypeHeaderMarkdown name description
      = ["<a name='typedef-" ++ name ++ "'>", "## `" ++ name ++ "`", ""]
        ++ (match description with
            | some ds => ds ++ [""]
            | none => [""]) := by
  cases description <;> simp [emitTypeHeaderMarkdown, emitDescription]

/-- C4: the code contradicts the claim — an enum section is the header
block followed by a fenced code block (```` ``` ````) around the base
generator's enum declaration; it contains no `**Variants:**` label and no
bullet lines at all. -/
theorem enum_section_fenced_not_variants :
    emitEnumMarkdown baseEmitEnum colorEnum
      = ["<a name='typedef-Color'>", "## `Color`", "", "", "```",
         "export enum Color \x7b", "    Red = \"RED\",", "    Green = \"GREEN\",", "\x7d", "```"]
    ∧ ¬ ("**Variants:**" ∈ emitEnumMarkdown baseEmitEnum colorEnum)
    ∧ (emitEnumMarkdown baseEmitEnum colorEnum).filter isBulletLine = [] := by
  decide

theorem isBulletLine_bullet (s : String) : isBulletLine ("* `" ++ s) = true := rfl

theorem isBulletLine_indent (s : String) : isBulletLine (indentUnit ++ s) = false := rfl

theorem filter_propertyDescriptionBlock (d : Option (List String)) :
    (propertyDescriptionBlock d).filter isBulletLine = [] := by
  cases d with
  | none => rfl
  | some ds =>
      refine List.filter_eq_nil_iff.mpr ?_
      intro a ha
      simp only [propertyDescriptionBlock, emitDescription, List.mem_append, List.mem_cons,
        List.mem_map, List.mem_singleton, List.not_mem_nil, or_false] at ha
      rcases ha with (rfl | ⟨x, _, rfl⟩) | rfl
      · decide
      · simp [isBulletLine_indent]
      · decide

/-- C6: for every class type, the bullet lines of the emitted member
listing are exactly one per property, in declaration order, each of the
form `* \`name\`` + ` (optional)` iff the property is optional + `: <code>`
+ the property's formatted type expression + `</code>`. -/
theorem class_properties_bullets (sup : Ty → MultiWord) (c : ClassData) :
    (emitClassPropertiesMarkdown sup c).filter isBulletLine
      = c.properties.map (fun p =>
          "* `" ++ p.name ++ "`" ++ (if p.isOptional then " (optional)" else "")
            ++ ": <code>" ++ flattenSL (sourceFor sup p.type).source ++ "</code>") := by
  have key : ∀ props : List ClassProperty,
      (props.flatMap (fun p =>
        ("* `" ++ p.name ++ "`"
          ++ (if p.isOptional then " (optional)" else "")
          ++ ": <code>" ++ flattenSL (sourceFor sup p.type).source ++ "</code>")
        :: propertyDescriptionBlock p.description)).filter isBulletLine
      = props.map (fun p =>
          "* `" ++ p.name ++ "`" ++ (if p.isOptional then " (optional)" else "")
            ++ ": <code>" ++ flattenSL (sourceFor sup p.type).source ++ "</code>") := by
    intro props
    induction props with
    | nil => rfl
    | cons p ps ih =>
        have hb : isBulletLine ("* `" ++ p.name ++ "`"
            ++ (if p.isOptional then " (optional)" else "")
            ++ ": <code>" ++ flattenSL (sourceFor sup p.type).source ++ "</code>") = true := by
          have h2 := isBulletLine_bullet (p.name ++ ("`"
            ++ ((if p.isOptional then " (optional)" else "")
            ++ (": <code>" ++ (flattenSL (sourceFor sup p.type).source ++ "</code>")))))
          simpa [String.append_assoc] using h2
        rw [List.flatMap_cons, List.filter_append, ih, List.map_cons, List.filter_cons, hb]
        simp [filter_propertyDescriptionBlock]
  have h0 : (["### Properties", ""] : List String).filter isBulletLine = [] := by decide
  simp only [emitClassPropertiesMarkdown, List.filter_append, h0, List.nil_append]
  exact key c.properties

/-- C9: with an argument count other than two, the program writes exactly
the usage line to the error stream, exits with status 1, and writes
nothing to standard output; the pipeline never runs. -/
theorem usage_error_behavior (pipeline : String → String → List String)
    (readFile : String → String) (program : String) (args : List String)
    (h : args.length ≠ 2) :
    mainFn pipeline readFile program args
      = { stdout := [], stderr := [usageLine program], exitCode := 1 } := by
  simp [mainFn, h]

/-- A pipeline stand-in used to evaluate `mainFn` on concrete inputs. -/
def pipelineNone : String → String → List String := fun _ _ => []

/-- A file-reader stand-in used to evaluate `mainFn` on concrete inputs. -/
def readFileNone : String → String := fun _ => ""

theorem usage_error_behavior_witness :
    ([] : List String).length ≠ 2
    ∧ mainFn pipelineNone readFileNone "app" []
        = { stdout := [], stderr := [usageLine "app"], exitCode := 1 } :=
  ⟨by decide, usage_error_behavior pipelineNone readFileNone "app" [] (by decide)⟩

/-- C10: the property bullet embeds the formatted type fragment's tokens
directly — `sourceFor(t).source` — without consulting the
needs-parentheses flag: when the flag is set the bullet still shows the
unparenthesized tokens and differs from the rendering `parenIfNeeded`
would give. -/
theorem property_bullet_ignores_needsParens
    (sup : Ty → MultiWord) (c : ClassData) (p : ClassProperty)
    (hmem : p ∈ c.properties)
    (hflag : (sourceFor sup p.type).needsParens = true) :
    ("* `" ++ p.name ++ "`" ++ (if p.isOptional then " (optional)" else "")
      ++ ": <code>" ++ flattenSL (sourceFor sup p.type).source ++ "</code>")
      ∈ emitClassPropertiesMarkdown sup c
    ∧ ("* `" ++ p.name ++ "`" ++ (if p.isOptional then " (optional)" else "")
      ++ ": <code>" ++ flattenSL (sourceFor sup p.type).source ++ "</code>")
      ≠ ("* `" ++ p.name ++ "`" ++ (if p.isOptional then " (optional)" else "")
      ++ ": <code>" ++ flattenSL (parenIfNeeded (sourceFor sup p.type)) ++ "</code>") := by
  constructor
  · simp only [emitClassPropertiesMarkdown]
    refine List.mem_append.mpr (Or.inr ?_)
    exact List.mem_flatMap.mpr ⟨p, hmem, List.mem_cons_self _ _⟩
  · intro hEq
    have hflat : flattenSL (parenIfNeeded (sourceFor sup p.type))
        = "(" ++ flattenSL (sourceFor sup p.type).source ++ ")" := by
      simp [parenIfNeeded, hflag, flattenSL, flattenSLList,
        String.append_empty, String.append_assoc]
    rw [hflat] at hEq
    have hlen := congrArg String.length hEq
    simp only [String.length_append] at hlen
    have h1 : "(".length = 1 := rfl
    have h2 : ")".length = 1 := rfl
    rw [h1, h2] at hlen
    omega

/-- A fallback formatter whose union fragment needs parentheses, as
quicktype's TypeScript `sourceFor` produces for inline unions. -/
def unionFallbackSup : Ty → MultiWord := fun _ => ⟨.s "number | string", true⟩

/-- A property whose type is a union, so its fragment is delegated to the
fallback formatter. -/
def boxProperty : ClassProperty :=
  { name := "value", jsonName := "value", type := .unionT, isOptional := false,
    description := none }

/-- A class holding `boxProperty`. -/
def boxClass : ClassData := { name := "Box", description := none, properties := [boxProperty] }

theorem property_bullet_ignores_needsParens_witness :
    boxProperty ∈ boxClass.properties
    ∧ (sourceFor unionFallbackSup boxProperty.type).needsParens = true
    ∧ (("* `" ++ boxProperty.name ++ "`"
        ++ (if boxProperty.isOptional then " (optional)" else "")
        ++ ": <code>" ++ flattenSL (sourceFor unionFallbackSup boxProperty.type).source
        ++ "</code>")
        ∈ emitClassPropertiesMarkdown unionFallbackSup boxClass
      ∧ ("* `" ++ boxProperty.name ++ "`"
        ++ (if boxProperty.isOptional then " (optional)" else "")
        ++ ": <code>" ++ flattenSL (sourceFor unionFallbackSup boxProperty.type).source
        ++ "</code>")
        ≠ ("* `" ++ boxProperty.name ++ "`"
        ++ (if boxProperty.isOptional then " (optional)" else "")
        ++ ": <code>" ++ flattenSL (parenIfNeeded (sourceFor unionFallbackSup boxProperty.type))
        ++ "</code>")) :=
  ⟨by decide, by decide,
   property_bullet_ignores_needsParens unionFallbackSup boxClass boxProperty
     (by decide) (by decide)⟩
